import Mathlib

/-!
Shallow embedding of the MySerial protocol-V4 core
(src/MySerial/SerialCommunicator.cpp) and proofs of its specified
properties: the XOR-rotate checksum, data-frame (de)serialization, the
sliding-window manager, and the receive loops of the two session roles.

Machine integers are modelled as `Nat`/`Int` with explicit truncation
(`% 2^16`) exactly where the C++ code truncates; byte buffers are
`List Nat` of byte values.
-/

namespace MySerial

/-- `SOF` = 0x02, the start byte of a data frame. -/
def SOF : Nat := 2

/-- `SOF_ACK` = 0x04, the start byte of an ACK frame. -/
def SOF_ACK : Nat := 4

/-- `EOF_BYTE` = 0x03, the final byte of every frame. -/
def EOF_BYTE : Nat := 3

/-- `WINDOW_SIZE_INIT` = 16. -/
def WINDOW_SIZE_INIT : Int := 16

/-- `WINDOW_SIZE_MAX` = 32. -/
def WINDOW_SIZE_MAX : Int := 32

/-- `WINDOW_SIZE_MIN` = 4. -/
def WINDOW_SIZE_MIN : Int := 4

/-- `FRAME_OVERHEAD_V3` = 10: SOF(1) + frameNum(4) + windowSize(2) +
checksum(2) + EOF(1). -/
def FRAME_OVERHEAD_V3 : Nat := 10

/-! ## Checksum (`DataFrame::calculateChecksum`)

C++ body, with `sum : uint16_t` and payload bytes cast through `uint8_t`:
```
uint16_t sum = 0;
for (size_t i = 0; i < payload.size(); ++i) {
    sum ^= static_cast<uint8_t>(payload[i]);
    sum = (sum << 1) | (sum >> 15);
}
return sum;
```
The shift expressions are computed after integer promotion (no overflow)
and the result is truncated back to 16 bits on assignment, hence the
explicit `% 65536`.  The `uint8_t` cast of a payload byte is `% 256`. -/

/-- One iteration of the `calculateChecksum` loop. -/
def checksumStep (sum b : Nat) : Nat :=
  let s := sum ^^^ (b % 256)
  ((s <<< 1) ||| (s >>> 15)) % 65536

/-- `DataFrame::calculateChecksum` over the payload bytes. -/
def calculateChecksum (payload : List Nat) : Nat :=
  payload.foldl checksumStep 0

/-- 16-bit rotate-left-by-one of a 16-bit accumulator, written
arithmetically: the low 15 bits move up one position and the top bit
wraps to position 0.  This is the spec's description of the step. -/
def rotl16 (x : Nat) : Nat := (2 * x) % 65536 + x / 32768

/-- The checksum as the spec describes it: starting from 0, for each byte
in order, XOR the zero-extended byte into the accumulator and then rotate
the 16-bit accumulator left by one bit. -/
def checksumSpec (payload : List Nat) : Nat :=
  payload.foldl (fun sum b => rotl16 (sum ^^^ (b % 256))) 0

/-- An even number OR 1 just sets the low bit. -/
lemma two_mul_lor_one (m : Nat) : 2 * m ||| 1 = 2 * m + 1 := by
  have h0 : (2 * m) = Nat.bit false m := by
    simp [Nat.bit]
  have h1 : (1 : Nat) = Nat.bit true 0 := by simp [Nat.bit]
  rw [h0, h1, Nat.lor_bit]
  simp [Nat.bit]

/-- For a 16-bit accumulator, the C++ expression
`((s << 1) | (s >> 15)) % 2^16` is the arithmetic rotate `rotl16`. -/
lemma shift_lor_eq_rotl16 (s : Nat) (hs : s < 65536) :
    ((s <<< 1) ||| (s >>> 15)) % 65536 = rotl16 s := by
  have hshL : s <<< 1 = 2 * s := by rw [Nat.shiftLeft_eq]; ring
  have hshR : s >>> 15 = s / 32768 := by
    rw [Nat.shiftRight_eq_div_pow]
  rw [hshL, hshR, rotl16]
  rcases Nat.lt_or_ge s 32768 with hlo | hhi
  · have hdiv : s / 32768 = 0 := Nat.div_eq_of_lt hlo
    rw [hdiv, Nat.or_zero]
    omega
  · have hdiv : s / 32768 = 1 := by omega
    rw [hdiv, two_mul_lor_one]
    omega

/-- The step functions agree on 16-bit accumulators. -/
lemma checksumStep_eq (sum b : Nat) (hs : sum < 65536) :
    checksumStep sum b = rotl16 (sum ^^^ (b % 256)) := by
  have hb : b % 256 < 65536 := by
    have := Nat.mod_lt b (y := 256) (by norm_num)
    omega
  have hx : sum ^^^ (b % 256) < 65536 := by
    have : sum ^^^ (b % 256) < 2 ^ 16 :=
      Nat.xor_lt_two_pow (by norm_num at *; omega) (by norm_num at *; omega)
    simpa using this
  unfold checksumStep
  exact shift_lor_eq_rotl16 _ hx

/-- The step keeps the accumulator inside 16 bits. -/
lemma checksumStep_lt (sum b : Nat) : checksumStep sum b < 65536 := by
  unfold checksumStep
  exact Nat.mod_lt _ (by norm_num)

lemma checksum_fold_eq (p : List Nat) :
    ∀ sum, sum < 65536 →
      p.foldl checksumStep sum = p.foldl (fun s b => rotl16 (s ^^^ (b % 256))) sum := by
  induction p with
  | nil => intro sum _; rfl
  | cons b rest ih =>
      intro sum hs
      simp only [List.foldl_cons]
      rw [← checksumStep_eq sum b hs]
      exact ih _ (checksumStep_lt sum b)

/-- **C6.** `DataFrame::calculateChecksum` computes exactly the
fold "XOR the zero-extended byte, then rotate the 16-bit accumulator left
by one bit", starting from 0; in particular the checksum of an empty
payload is 0. -/
theorem calculateChecksum_spec (p : List Nat) :
    calculateChecksum p = checksumSpec p ∧ calculateChecksum [] = 0 := by
  constructor
  · unfold calculateChecksum checksumSpec
    exact checksum_fold_eq p 0 (by norm_num)
  · rfl

/-! ## Data frames (`struct DataFrame`)

`frameNum` is a 32-bit `int` and `windowSize`/`checksum` are `uint16_t`;
they are written to the wire by `memcpy` of their little-endian
representation. We carry the bit patterns as `Nat` bounded by `2^32`
resp. `2^16`. -/

/-- A V4 data frame: `frameNum` (32-bit bit pattern), `windowSize`,
`checksum` (16-bit), and the payload bytes. -/
structure DataFrame where
  frameNum : Nat
  windowSize : Nat
  checksum : Nat
  payload : List Nat
deriving DecidableEq

/-- Little-endian byte encoding of `x` on `n` bytes (the layout `memcpy`
produces for the integer fields on the x86 target). -/
def toLE : Nat → Nat → List Nat
  | 0, _ => []
  | n + 1, x => (x % 256) :: toLE n (x / 256)

/-- Little-endian byte decoding, inverse of `toLE`. -/
def fromLE : List Nat → Nat
  | [] => 0
  | b :: bs => b + 256 * fromLE bs

/-- `DataFrame::serialize`:
`[SOF][frameNum(4)][windowSize(2)][checksum(2)][payload][EOF]`. -/
def serialize (f : DataFrame) : List Nat :=
  SOF :: (toLE 4 f.frameNum ++ toLE 2 f.windowSize ++ toLE 2 f.checksum ++
    f.payload ++ [EOF_BYTE])

/-- `DataFrame::deserialize` over a buffer of `length` bytes: fails if the
buffer is shorter than the 10-byte overhead or the SOF/EOF bytes are
wrong, otherwise extracts the three integer fields and the
`length - 10`-byte payload. -/
def deserialize (buffer : List Nat) : Option DataFrame :=
  if buffer.length < FRAME_OVERHEAD_V3 then none
  else if buffer.headD 0 ≠ SOF ∨ buffer.getD (buffer.length - 1) 0 ≠ EOF_BYTE then none
  else some
    { frameNum := fromLE ((buffer.drop 1).take 4)
      windowSize := fromLE ((buffer.drop 5).take 2)
      checksum := fromLE ((buffer.drop 7).take 2)
      payload := (buffer.drop 9).take (buffer.length - FRAME_OVERHEAD_V3) }

lemma toLE_length (n x : Nat) : (toLE n x).length = n := by
  induction n generalizing x with
  | zero => rfl
  | succ n ih => simp [toLE, ih]

lemma fromLE_toLE (n x : Nat) (h : x < 256 ^ n) : fromLE (toLE n x) = x := by
  induction n generalizing x with
  | zero =>
      simp only [toLE, fromLE]
      omega
  | succ n ih =>
      simp only [toLE, fromLE]
      rw [ih (x / 256) (by
        have : 256 ^ (n + 1) = 256 ^ n * 256 := by ring
        omega)]
      omega

lemma serialize_length (f : DataFrame) :
    (serialize f).length = FRAME_OVERHEAD_V3 + f.payload.length := by
  simp [serialize, toLE_length, FRAME_OVERHEAD_V3]
  omega

/-- **C7.** Round-trip: for every well-formed frame (fields within their
machine-integer ranges), deserializing the serialized buffer — whose
length is `10 + |payload|` — succeeds and reconstructs the frame. -/
theorem deserialize_serialize (f : DataFrame)
    (hf : f.frameNum < 2 ^ 32) (hw : f.windowSize < 2 ^ 16)
    (hc : f.checksum < 2 ^ 16) :
    deserialize (serialize f) = some f ∧
      (serialize f).length = FRAME_OVERHEAD_V3 + f.payload.length := by
  refine ⟨?_, serialize_length f⟩
  have hlen := serialize_length f
  have hnotshort : ¬ (serialize f).length < FRAME_OVERHEAD_V3 := by omega
  have hhead : (serialize f).headD 0 = SOF := by
    simp [serialize]
  have hlast : (serialize f).getD ((serialize f).length - 1) 0 = EOF_BYTE := by
    have h1 : serialize f =
        (SOF :: (toLE 4 f.frameNum ++ toLE 2 f.windowSize ++ toLE 2 f.checksum ++
          f.payload)) ++ [EOF_BYTE] := by
      simp [serialize]
    rw [h1]
    have h2 : ((SOF :: (toLE 4 f.frameNum ++ toLE 2 f.windowSize ++ toLE 2 f.checksum ++
        f.payload)) ++ [EOF_BYTE]).length =
        (SOF :: (toLE 4 f.frameNum ++ toLE 2 f.windowSize ++ toLE 2 f.checksum ++
          f.payload)).length + 1 := by
      simp
      omega
    rw [List.getD_eq_getElem?_getD, h2, Nat.add_sub_cancel,
      List.getElem?_append_right (by omega)]
    simp
  have hdrop1 : (serialize f).drop 1 =
      toLE 4 f.frameNum ++ (toLE 2 f.windowSize ++ (toLE 2 f.checksum ++
        (f.payload ++ [EOF_BYTE]))) := by
    simp [serialize]
  have hdrop5 : (serialize f).drop 5 =
      toLE 2 f.windowSize ++ (toLE 2 f.checksum ++ (f.payload ++ [EOF_BYTE])) := by
    have : (serialize f).drop 5 = ((serialize f).drop 1).drop 4 := by
      rw [List.drop_drop]
    rw [this, hdrop1, List.drop_append_of_le_length (by simp [toLE_length])]
    simp [toLE_length]
  have hdrop7 : (serialize f).drop 7 =
      toLE 2 f.checksum ++ (f.payload ++ [EOF_BYTE]) := by
    have : (serialize f).drop 7 = ((serialize f).drop 5).drop 2 := by
      rw [List.drop_drop]
    rw [this, hdrop5, List.drop_append_of_le_length (by simp [toLE_length])]
    simp [toLE_length]
  have hdrop9 : (serialize f).drop 9 = f.payload ++ [EOF_BYTE] := by
    have : (serialize f).drop 9 = ((serialize f).drop 7).drop 2 := by
      rw [List.drop_drop]
    rw [this, hdrop7, List.drop_append_of_le_length (by simp [toLE_length])]
    simp [toLE_length]
  have htake4 : ((serialize f).drop 1).take 4 = toLE 4 f.frameNum := by
    rw [hdrop1, List.take_append_of_le_length (by simp [toLE_length])]
    simp [toLE_length]
  have htake5 : ((serialize f).drop 5).take 2 = toLE 2 f.windowSize := by
    rw [hdrop5, List.take_append_of_le_length (by simp [toLE_length])]
    simp [toLE_length]
  have htake7 : ((serialize f).drop 7).take 2 = toLE 2 f.checksum := by
    rw [hdrop7, List.take_append_of_le_length (by simp [toLE_length])]
    simp [toLE_length]
  have htake9 : ((serialize f).drop 9).take ((serialize f).length - FRAME_OVERHEAD_V3) =
      f.payload := by
    rw [hdrop9, hlen, Nat.add_sub_cancel_left,
      List.take_append_of_le_length (le_refl _)]
    simp
  unfold deserialize
  rw [if_neg hnotshort, if_neg (by
    push_neg
    exact ⟨hhead, hlast⟩)]
  rw [htake4, htake5, htake7, htake9]
  rw [fromLE_toLE 4 f.frameNum (by norm_num at hf ⊢; omega),
    fromLE_toLE 2 f.windowSize (by norm_num at hw ⊢; omega),
    fromLE_toLE 2 f.checksum (by norm_num at hc ⊢; omega)]

/-- **C7 witness.** A concrete frame round-trips. -/
theorem deserialize_serialize_witness :
    deserialize (serialize ⟨7, 16, 3, [10, 20]⟩) = some ⟨7, 16, 3, [10, 20]⟩ ∧
      (serialize ⟨7, 16, 3, [10, 20]⟩).length = FRAME_OVERHEAD_V3 + 2 :=
  deserialize_serialize ⟨7, 16, 3, [10, 20]⟩ (by norm_num) (by norm_num) (by norm_num)

/-! ## Sliding window (`class WindowManager`)

The C++ class guards its fields with a mutex; each public operation is a
single critical section, so the class is a sequential state machine and
is embedded as pure functions on a state record. The `std::map<int,bool>`
of ACK bits is embedded as a total function `Int → Bool`: an absent key
and a key stored with value `false` are indistinguishable through every
observation the class makes (`isAcked`, `slideWindow`, `getFramesToSend`
all treat them alike), so `erase` is modelled by storing `false`. -/

/-- The private fields of `WindowManager`. -/
structure WMState where
  baseSeq : Int
  windowSize : Int
  totalFrames : Int
  ackedFrames : Int → Bool
  consecutiveSuccesses : Int
  consecutiveFailures : Int

/-- Pointwise update of the ACK map. -/
def setKey (m : Int → Bool) (k : Int) (v : Bool) : Int → Bool :=
  fun j => if j = k then v else m j

/-- `WindowManager::WindowManager(totalFrames)`. -/
def WMState.init (totalFrames : Int) : WMState :=
  { baseSeq := 0
    windowSize := WINDOW_SIZE_INIT
    totalFrames := totalFrames
    ackedFrames := fun _ => false
    consecutiveSuccesses := 0
    consecutiveFailures := 0 }

/-- `WindowManager::markAcked`: `ackedFrames[frameNum] = true`. -/
def markAcked (frameNum : Int) (st : WMState) : WMState :=
  { st with ackedFrames := setKey st.ackedFrames frameNum true }

/-- The `while (baseSeq < totalFrames && ackedFrames[baseSeq])` loop of
`WindowManager::slideWindow`, with the exact iteration bound
`totalFrames - baseSeq` as structural fuel: when the fuel is exhausted
the guard `baseSeq < totalFrames` is false as well, so the fuel never
cuts the loop short. -/
def slideLoop : Nat → WMState → Int → WMState × Int
  | 0, st, cnt => (st, cnt)
  | Nat.succ fuel, st, cnt =>
    if st.baseSeq < st.totalFrames ∧ st.ackedFrames st.baseSeq = true then
      slideLoop fuel
        { st with ackedFrames := setKey st.ackedFrames st.baseSeq false
                  baseSeq := st.baseSeq + 1 }
        (cnt + 1)
    else (st, cnt)

/-- `WindowManager::slideWindow`: slide past consecutively ACKed frames,
erasing their entries; returns the new state and the slid count. -/
def slideWindow (st : WMState) : WMState × Int :=
  slideLoop (st.totalFrames - st.baseSeq).toNat st 0

/-- `WindowManager::adjustWindow(success, rtt)`, following the source
statement by statement: the success branch bumps the success counter,
doubles the window (capped at `WINDOW_SIZE_MAX`) after 3 consecutive
successes, and then halves it (floored at `WINDOW_SIZE_MIN`) when
`rtt > 2000`; the failure branch bumps the failure counter and halves
the window after 3 consecutive failures. -/
def adjustWindow (st : WMState) (success : Bool) (rtt : ℚ) : WMState :=
  if success then
    let st1 := { st with consecutiveSuccesses := st.consecutiveSuccesses + 1
                         consecutiveFailures := 0 }
    let st2 :=
      if st1.consecutiveSuccesses ≥ 3 then
        let newSize :=
          if st1.windowSize * 2 > WINDOW_SIZE_MAX then WINDOW_SIZE_MAX
          else st1.windowSize * 2
        { st1 with windowSize := newSize, consecutiveSuccesses := 0 }
      else st1
    if rtt > 2000 then
      { st2 with windowSize := max (st2.windowSize / 2) WINDOW_SIZE_MIN
                 consecutiveSuccesses := 0 }
    else st2
  else
    let st1 := { st with consecutiveFailures := st.consecutiveFailures + 1
                         consecutiveSuccesses := 0 }
    if st1.consecutiveFailures ≥ 3 then
      { st1 with windowSize := max (st1.windowSize / 2) WINDOW_SIZE_MIN
                 consecutiveFailures := 0 }
    else st1

/-- The `for (int i = baseSeq; i < baseSeq + windowSize && i < totalFrames; ++i)`
loop of `WindowManager::getFramesToSend`, with the exact iteration count
as structural fuel (when the fuel runs out, `i` has reached the bound and
the guard is false as well). -/
def framesLoop (acked : Int → Bool) (stopA stopB : Int) : Nat → Int → List Int
  | 0, _ => []
  | Nat.succ fuel, i =>
    if i < stopA ∧ i < stopB then
      (if acked i = false then [i] else []) ++ framesLoop acked stopA stopB fuel (i + 1)
    else []

/-- `WindowManager::getFramesToSend`: the frames in the window, capped by
`totalFrames`, whose ACK bit is not set. -/
def getFramesToSend (st : WMState) : List Int :=
  framesLoop st.ackedFrames (st.baseSeq + st.windowSize) st.totalFrames
    (min (st.baseSeq + st.windowSize) st.totalFrames - st.baseSeq).toNat st.baseSeq

/-- **C3.** The window-adaptation law of `adjustWindow`: on success the
failure counter is zeroed and the success counter is incremented, the
window doubles (capped at 32) once the success counter reaches 3 — which
also resets the counter — and additionally halves (floored at 4),
resetting the counter, when `rtt > 2000`; on failure the success counter
is zeroed and the failure counter incremented, and the window halves
(floored at 4) once the failure counter reaches 3, resetting it. -/
theorem adjustWindow_law (st : WMState) (rtt : ℚ) :
    ((adjustWindow st true rtt).consecutiveFailures = 0 ∧
      (adjustWindow st true rtt).consecutiveSuccesses =
        (if st.consecutiveSuccesses + 1 ≥ 3 ∨ rtt > 2000 then 0
         else st.consecutiveSuccesses + 1) ∧
      (adjustWindow st true rtt).windowSize =
        (let w := if st.consecutiveSuccesses + 1 ≥ 3
                  then min (st.windowSize * 2) WINDOW_SIZE_MAX else st.windowSize
         if rtt > 2000 then max (w / 2) WINDOW_SIZE_MIN else w)) ∧
    ((adjustWindow st false rtt).consecutiveSuccesses = 0 ∧
      (adjustWindow st false rtt).consecutiveFailures =
        (if st.consecutiveFailures + 1 ≥ 3 then 0 else st.consecutiveFailures + 1) ∧
      (adjustWindow st false rtt).windowSize =
        (if st.consecutiveFailures + 1 ≥ 3
         then max (st.windowSize / 2) WINDOW_SIZE_MIN else st.windowSize)) := by
  unfold adjustWindow
  simp only [WINDOW_SIZE_MAX, WINDOW_SIZE_MIN]
  constructor
  · by_cases h1 : 3 ≤ st.consecutiveSuccesses + 1 <;>
      by_cases h2 : (2000 : ℚ) < rtt <;>
      simp [h1, h2] <;> omega
  · by_cases h1 : 3 ≤ st.consecutiveFailures + 1 <;>
      simp [h1]

/-- **C10.** Frame effect of `adjustWindow`: for any arguments it leaves
`baseSeq`, `totalFrames` and the ACK map untouched (only the window size
and the two counters may change). -/
theorem adjustWindow_frame (st : WMState) (success : Bool) (rtt : ℚ) :
    (adjustWindow st success rtt).baseSeq = st.baseSeq ∧
      (adjustWindow st success rtt).totalFrames = st.totalFrames ∧
      (adjustWindow st success rtt).ackedFrames = st.ackedFrames := by
  unfold adjustWindow
  cases success <;> simp only [Bool.false_eq_true, if_true, if_false] <;>
    split_ifs <;> simp

/-- The states reachable from a `WindowManager` constructor call through
the mutating operations (the queries `getBase`, `getWindowSize`,
`isInWindow`, `isAcked`, `isComplete`, `getFramesToSend` read the state
without changing it). -/
inductive Reachable : WMState → Prop
  | init (n : Int) : Reachable (WMState.init n)
  | mark {st : WMState} (n : Int) : Reachable st → Reachable (markAcked n st)
  | slide {st : WMState} : Reachable st → Reachable (slideWindow st).1
  | adjust {st : WMState} (success : Bool) (rtt : ℚ) :
      Reachable st → Reachable (adjustWindow st success rtt)

lemma slideLoop_fields (fuel : Nat) :
    ∀ st cnt, ((slideLoop fuel st cnt).1.windowSize = st.windowSize ∧
      (slideLoop fuel st cnt).1.totalFrames = st.totalFrames) ∧
      st.baseSeq ≤ (slideLoop fuel st cnt).1.baseSeq := by
  induction fuel with
  | zero => intro st cnt; exact ⟨⟨rfl, rfl⟩, le_refl _⟩
  | succ fuel ih =>
      intro st cnt
      unfold slideLoop
      split_ifs with h
      · refine ⟨(ih _ _).1, le_trans ?_ (ih _ _).2⟩
        simp
      · exact ⟨⟨rfl, rfl⟩, le_refl _⟩

lemma adjustWindow_bounds (st : WMState) (success : Bool) (rtt : ℚ)
    (h4 : 4 ≤ st.windowSize) (h32 : st.windowSize ≤ 32) :
    4 ≤ (adjustWindow st success rtt).windowSize ∧
      (adjustWindow st success rtt).windowSize ≤ 32 := by
  unfold adjustWindow
  simp only [WINDOW_SIZE_MAX, WINDOW_SIZE_MIN]
  cases success
  · simp only [Bool.false_eq_true, if_false]
    split_ifs <;> constructor <;> simp <;> omega
  · simp only [if_true]
    split_ifs <;> constructor <;> simp <;> omega

/-- **C4.** Window-size bounds: a `WindowManager` starts with
`windowSize = WINDOW_SIZE_INIT = 16`, and every state reachable through
any sequence of operations satisfies
`WINDOW_SIZE_MIN = 4 ≤ windowSize ≤ WINDOW_SIZE_MAX = 32`. -/
theorem windowSize_bounds (st : WMState) (h : Reachable st) :
    4 ≤ st.windowSize ∧ st.windowSize ≤ 32 ∧
      (WMState.init st.totalFrames).windowSize = 16 := by
  have main : 4 ≤ st.windowSize ∧ st.windowSize ≤ 32 := by
    induction h with
    | init n => simp [WMState.init, WINDOW_SIZE_INIT]
    | mark n _ ih => simpa [markAcked] using ih
    | slide _ ih =>
        rename_i st' _
        have := (slideLoop_fields (st'.totalFrames - st'.baseSeq).toNat st' 0).1.1
        unfold slideWindow
        omega
    | adjust success rtt _ ih =>
        rename_i st' _
        exact adjustWindow_bounds st' success rtt ih.1 ih.2
  exact ⟨main.1, main.2, rfl⟩

/-- **C4 witness.** The bounds hold at a concrete reachable state. -/
theorem windowSize_bounds_witness :
    4 ≤ (WMState.init 5).windowSize ∧ (WMState.init 5).windowSize ≤ 32 ∧
      (WMState.init (WMState.init 5).totalFrames).windowSize = 16 :=
  windowSize_bounds (WMState.init 5) (Reachable.init 5)

/-! ### The window-state invariant (C5)

As stated over unrestricted operation sequences the invariant is false:
`markAcked` accepts any frame number, so marking a frame, sliding past
it (which erases the entry and advances `baseSeq`), and marking the same
frame again leaves `acked[k] = true` with `k < baseSeq`.  The ACK
listener can trigger exactly this through a duplicated ACK frame.  The
invariant does hold when every `markAcked` call is for a frame at or
beyond the current base and the manager was created with a nonnegative
frame count. -/

/-- Reachability where each `markAcked` argument is at or beyond the
current base and the constructor argument is nonnegative. -/
inductive ReachableG : WMState → Prop
  | init (n : Int) : 0 ≤ n → ReachableG (WMState.init n)
  | mark {st : WMState} (n : Int) : st.baseSeq ≤ n → ReachableG st →
      ReachableG (markAcked n st)
  | slide {st : WMState} : ReachableG st → ReachableG (slideWindow st).1
  | adjust {st : WMState} (success : Bool) (rtt : ℚ) :
      ReachableG st → ReachableG (adjustWindow st success rtt)

/-- The C5 state invariant: set ACK bits lie at or beyond the base, and
the base stays at most the total frame count. -/
def WInv (st : WMState) : Prop :=
  (∀ k, st.ackedFrames k = true → st.baseSeq ≤ k) ∧ st.baseSeq ≤ st.totalFrames

lemma slideLoop_WInv (fuel : Nat) :
    ∀ st cnt, WInv st → WInv (slideLoop fuel st cnt).1 := by
  induction fuel with
  | zero => intro st cnt h; exact h
  | succ fuel ih =>
      intro st cnt h
      unfold slideLoop
      split_ifs with hg
      · refine ih _ _ ⟨?_, by simp; omega⟩
        intro k hk
        simp only [setKey] at hk
        by_cases hke : k = st.baseSeq
        · simp [hke] at hk
        · rw [if_neg hke] at hk
          have := h.1 k hk
          simp
          omega
      · exact h

/-- **C5 (amended).** Two parts.  First, for every state reached with a
nonnegative frame count and `markAcked` calls restricted to frames at or
beyond the current base: every set ACK bit is at or beyond `baseSeq` and
`baseSeq ≤ totalFrames`.  Second — for every `WMState` whatsoever, with
no reachability hypothesis — no operation (`markAcked` with any frame
number, `slideWindow`, `adjustWindow` with any arguments) ever decreases
`baseSeq`. -/
theorem wm_state_invariant :
    (∀ st : WMState, ReachableG st →
      (∀ k, st.ackedFrames k = true → st.baseSeq ≤ k) ∧
        st.baseSeq ≤ st.totalFrames) ∧
    (∀ st : WMState,
      (∀ n, st.baseSeq ≤ (markAcked n st).baseSeq) ∧
        st.baseSeq ≤ (slideWindow st).1.baseSeq ∧
        (∀ (success : Bool) (rtt : ℚ),
          st.baseSeq ≤ (adjustWindow st success rtt).baseSeq)) := by
  constructor
  · intro st h
    induction h with
    | init n hn => exact ⟨by intro k hk; simp [WMState.init] at hk, by simpa [WMState.init]⟩
    | mark n hg _ ih =>
        refine ⟨?_, ih.2⟩
        intro k hk
        simp only [markAcked, setKey] at hk ⊢
        by_cases hke : k = n
        · omega
        · rw [if_neg hke] at hk
          exact ih.1 k hk
    | slide _ ih => exact slideLoop_WInv _ _ _ ih
    | adjust success rtt _ ih =>
        rename_i st' _
        have hfr := adjustWindow_frame st' success rtt
        exact ⟨by rw [hfr.1, hfr.2.2]; exact ih.1, by rw [hfr.1, hfr.2.1]; exact ih.2⟩
  · intro st
    exact ⟨fun n => le_refl _, (slideLoop_fields _ _ _).2,
      fun success rtt => le_of_eq (adjustWindow_frame st success rtt).1.symm⟩

/-- **C5 witness.** The guarded invariant instantiated at a concrete
state, and base monotonicity of a concrete slide. -/
theorem wm_state_invariant_witness :
    ((WMState.init 3).baseSeq ≤ (WMState.init 3).totalFrames) ∧
      (WMState.init 3).baseSeq ≤ (slideWindow (WMState.init 3)).1.baseSeq :=
  ⟨(wm_state_invariant.1 (WMState.init 3) (ReachableG.init 3 (by norm_num))).2,
    (wm_state_invariant.2 (WMState.init 3)).2.1⟩

/-- **C5 counterexample.** With `markAcked` unrestricted — as the claim
states it — the invariant fails: mark frame 0, slide (base becomes 1 and
the entry is erased), mark frame 0 again; now `acked[0] = true` while
`baseSeq = 1`. -/
theorem wm_state_invariant_counterexample :
    (markAcked 0 (slideWindow (markAcked 0 (WMState.init 10))).1).ackedFrames 0 = true ∧
      ¬ ((markAcked 0 (slideWindow (markAcked 0 (WMState.init 10))).1).baseSeq ≤ 0) := by
  constructor
  · decide
  · decide

/-! ### `getFramesToSend` (C8) -/

lemma framesLoop_spec (acked : Int → Bool) (stopA stopB : Int) :
    ∀ (fuel : Nat) (i : Int), (min stopA stopB - i).toNat ≤ fuel →
      (∀ k, k ∈ framesLoop acked stopA stopB fuel i ↔
        (i ≤ k ∧ k < stopA ∧ k < stopB ∧ acked k = false)) ∧
      List.Sorted (· < ·) (framesLoop acked stopA stopB fuel i) := by
  intro fuel
  induction fuel with
  | zero =>
      intro i hf
      unfold framesLoop
      constructor
      · intro k
        simp only [List.not_mem_nil, false_iff]
        rintro ⟨h1, h2, h3, h4⟩
        omega
      · simp
  | succ fuel ih =>
      intro i hf
      unfold framesLoop
      by_cases hg : i < stopA ∧ i < stopB
      · rw [if_pos hg]
        have hf2 : (min stopA stopB - (i + 1)).toNat ≤ fuel := by omega
        have hrec := ih (i + 1) hf2
        by_cases ha : acked i = false
        · rw [if_pos ha, List.singleton_append]
          constructor
          · intro k
            rw [List.mem_cons, hrec.1 k]
            constructor
            · rintro (hk | ⟨h1, h2, h3, h4⟩)
              · subst hk; exact ⟨le_refl _, hg.1, hg.2, ha⟩
              · exact ⟨by omega, h2, h3, h4⟩
            · rintro ⟨h1, h2, h3, h4⟩
              by_cases hk : k = i
              · exact Or.inl hk
              · exact Or.inr ⟨by omega, h2, h3, h4⟩
          · rw [List.sorted_cons]
            refine ⟨?_, hrec.2⟩
            intro k hk
            have := (hrec.1 k).1 hk
            omega
        · rw [if_neg ha, List.nil_append]
          constructor
          · intro k
            rw [hrec.1 k]
            constructor
            · rintro ⟨h1, h2, h3, h4⟩
              exact ⟨by omega, h2, h3, h4⟩
            · rintro ⟨h1, h2, h3, h4⟩
              refine ⟨?_, h2, h3, h4⟩
              by_cases hk : k = i
              · subst hk; exact absurd h4 ha
              · omega
          · exact hrec.2
      · rw [if_neg hg]
        constructor
        · intro k
          simp only [List.not_mem_nil, false_iff]
          rintro ⟨h1, h2, h3, h4⟩
          exact hg ⟨by omega, by omega⟩
        · simp

/-- **C8 (amended).** `getFramesToSend` returns exactly the sequence
numbers in `[base, base + windowSize)` that are also below `totalFrames`
and not marked acked, in strictly ascending order.  (The claim's
uncapped interval `[base, base + windowSize)` is wrong: the loop also
stops at `totalFrames`.) -/
theorem getFramesToSend_spec (st : WMState) :
    (∀ k, k ∈ getFramesToSend st ↔
      (st.baseSeq ≤ k ∧ k < st.baseSeq + st.windowSize ∧ k < st.totalFrames ∧
        st.ackedFrames k = false)) ∧
    List.Sorted (· < ·) (getFramesToSend st) := by
  unfold getFramesToSend
  exact framesLoop_spec st.ackedFrames (st.baseSeq + st.windowSize) st.totalFrames
    _ st.baseSeq (le_refl _)

/-- **C8 counterexample.** For `WindowManager(1)` the claimed result set
`\x7bk ∈ [base, base+16) : ¬acked k\x7d` contains 15, but
`getFramesToSend` does not return it: the loop is capped at
`totalFrames = 1`. -/
theorem getFramesToSend_counterexample :
    (WMState.init 1).baseSeq ≤ 15 ∧
      15 < (WMState.init 1).baseSeq + (WMState.init 1).windowSize ∧
      (WMState.init 1).ackedFrames 15 = false ∧
      15 ∉ getFramesToSend (WMState.init 1) := by
  refine ⟨by decide, by decide, by decide, by decide⟩

/-! ## The receive loops (`serverMode` Phase 1 and `clientMode` Phase 2)

Both loops have the same shape: while `nextExpectedFrame < num`, read up
to `frameSize` bytes; on a full read, deserialize, re-check SOF/EOF,
immediately write a one-bit ACK, drop duplicates, verify checksum and the
direction-specific payload pattern, and on success insert the frame into
the received map, add the read size to the byte total, and drain the
next-expected cursor through the map.  The two roles differ in the
payload pattern and in one branch: only `clientMode` has an `else` that
counts a failed `deserialize` as an error; `serverMode` falls through
silently. -/

/-- The two receiving roles: the client in Phase 2, the server in
Phase 1. -/
inductive Role
  | client
  | server
deriving DecidableEq

/-- The byte the receiver expects at payload offset `j`:
`255 - (j % 256)` for the client (server→client data),
`j % 256` for the server (client→server data). -/
def expectedByte (role : Role) (j : Nat) : Nat :=
  match role with
  | .client => 255 - j % 256
  | .server => j % 256

/-- The payload-validation loop: compares every payload byte against the
expected pattern. -/
def payloadLoop (role : Role) : List Nat → Nat → Bool
  | [], _ => true
  | b :: rest, j =>
    if b = expectedByte role j then payloadLoop role rest (j + 1) else false

/-- An ACK frame: base frame number and 32-bit bitmap (bit patterns as
`Nat`). -/
structure AckFrame where
  baseFrameNum : Nat
  bitmap : Nat
deriving DecidableEq

/-- `AckFrame::setAck`: set the bitmap bit at `frameNum - baseFrameNum`
if that offset is in `[0, 32)`. -/
def setAck (a : AckFrame) (frameNum : Nat) : AckFrame :=
  let offset : Int := (frameNum : Int) - (a.baseFrameNum : Int)
  if 0 ≤ offset ∧ offset < 32 then
    { a with bitmap := a.bitmap ||| (1 <<< offset.toNat) }
  else a

/-- The receiver-side observable state: the keys of the received-frame
map, the four counters, and the trace of ACK frames written (most recent
first). -/
structure RecvState where
  receivedFrames : List Nat
  totalReceivedBytes : Nat
  receivedNum : Nat
  errorCount : Nat
  nextExpectedFrame : Nat
  acksSent : List AckFrame
deriving DecidableEq

/-- The state at entry of either receive loop. -/
def RecvState.init : RecvState :=
  { receivedFrames := []
    totalReceivedBytes := 0
    receivedNum := 0
    errorCount := 0
    nextExpectedFrame := 0
    acksSent := [] }

/-- The `while (receivedFrames.find(nextExpectedFrame) != ...)` drain
loop: advance the cursor and the received count while the cursor's frame
is present.  The fuel is the size of the map, which bounds the number of
iterations because the keys are distinct and each iteration consumes a
distinct key. -/
def drainLoop : Nat → List Nat → Nat → Nat → Nat × Nat
  | 0, _, next, cnt => (next, cnt)
  | Nat.succ fuel, keys, next, cnt =>
    if next ∈ keys then drainLoop fuel keys (next + 1) (cnt + 1) else (next, cnt)

/-- One call of `serial.read` as the loop body sees it: either not a
full frame (timeout or partial read) or a full `frameSize`-byte buffer. -/
inductive ReadResult
  | timeout
  | full (buffer : List Nat)

/-- One iteration of the receive-loop body on a read result. -/
def recvStep (role : Role) (frameSize : Nat) (st : RecvState) (r : ReadResult) :
    RecvState :=
  match r with
  | .timeout => st
  | .full buf =>
    if buf.length = frameSize then
      match deserialize buf with
      | none =>
        match role with
        | .client => { st with errorCount := st.errorCount + 1 }
        | .server => st
      | some frame =>
        if buf.headD 0 = SOF ∧ buf.getD (frameSize - 1) 0 = EOF_BYTE then
          let ack := setAck { baseFrameNum := frame.frameNum, bitmap := 0 } frame.frameNum
          let st1 := { st with acksSent := ack :: st.acksSent }
          if frame.frameNum ∈ st1.receivedFrames then st1
          else if frame.checksum = calculateChecksum frame.payload then
            if payloadLoop role frame.payload 0 = true then
              let keys := frame.frameNum :: st1.receivedFrames
              let st2 := { st1 with receivedFrames := keys
                                    totalReceivedBytes := st1.totalReceivedBytes + frameSize }
              let dr := drainLoop keys.length keys st2.nextExpectedFrame st2.receivedNum
              { st2 with nextExpectedFrame := dr.1, receivedNum := dr.2 }
            else { st1 with errorCount := st1.errorCount + 1 }
          else { st1 with errorCount := st1.errorCount + 1 }
        else st
    else st

/-- The receive loop: process reads in order while
`nextExpectedFrame < num`. -/
def recvLoop (role : Role) (frameSize num : Nat) : RecvState → List ReadResult → RecvState
  | st, [] => st
  | st, r :: rs =>
    if st.nextExpectedFrame < num then
      recvLoop role frameSize num (recvStep role frameSize st r) rs
    else st

/-- Boolean well-framedness of a read trace: every buffer that
deserializes carries a frame number below the session's frame count.
This is what the peer's sender guarantees for its `num` frames. -/
def readsWellFramed (num : Nat) (reads : List ReadResult) : Bool :=
  reads.all fun r =>
    match r with
    | .timeout => true
    | .full buf =>
      match deserialize buf with
      | none => true
      | some f => decide (f.frameNum < num)

lemma deserialize_sof_eof (buf : List Nat) (f : DataFrame)
    (h : deserialize buf = some f) :
    buf.headD 0 = SOF ∧ buf.getD (buf.length - 1) 0 = EOF_BYTE := by
  unfold deserialize at h
  split_ifs at h with h1 h2
  push_neg at h2
  exact h2

lemma setAck_self (n : Nat) :
    setAck { baseFrameNum := n, bitmap := 0 } n = { baseFrameNum := n, bitmap := 1 } := by
  unfold setAck
  simp

/-- **C2.** Unconditional immediate ACK with at-most-once accounting: for
any full read whose buffer deserializes (hence passes the SOF/EOF check),
the receiver — in either role — records exactly one more ACK, with base
equal to the frame's number and bitmap `1` (only bit 0 set), and this
happens whatever the duplicate, checksum, and payload checks later
decide; moreover if the frame number is already in the received map,
neither the byte total, nor the cursor, nor the received count change. -/
theorem immediate_ack_at_most_once (role : Role) (frameSize : Nat)
    (st : RecvState) (buf : List Nat) (f : DataFrame)
    (hlen : buf.length = frameSize) (hdes : deserialize buf = some f) :
    (recvStep role frameSize st (.full buf)).acksSent =
      { baseFrameNum := f.frameNum, bitmap := 1 } :: st.acksSent ∧
    (f.frameNum ∈ st.receivedFrames →
      (recvStep role frameSize st (.full buf)).totalReceivedBytes =
          st.totalReceivedBytes ∧
        (recvStep role frameSize st (.full buf)).nextExpectedFrame =
          st.nextExpectedFrame ∧
        (recvStep role frameSize st (.full buf)).receivedNum = st.receivedNum) := by
  have hsof := (deserialize_sof_eof buf f hdes).1
  have heof := (deserialize_sof_eof buf f hdes).2
  simp only [recvStep]
  rw [if_pos hlen, hdes]
  simp only []
  rw [if_pos ⟨hsof, by rw [← hlen]; exact heof⟩, setAck_self]
  constructor
  · split_ifs <;> rfl
  · intro hdup
    rw [if_pos hdup]
    exact ⟨rfl, rfl, rfl⟩

/-- **C2 witness.** A duplicate frame 0 arriving in a state that already
holds frame 0 produces the single-bit ACK and leaves the accounting
untouched. -/
theorem immediate_ack_at_most_once_witness :
    (recvStep Role.client 10
        { receivedFrames := [0], totalReceivedBytes := 10, receivedNum := 1,
          errorCount := 0, nextExpectedFrame := 1, acksSent := [] }
        (.full [2, 0, 0, 0, 0, 16, 0, 0, 0, 3])).acksSent =
      [{ baseFrameNum := 0, bitmap := 1 }] ∧
    ((0 : Nat) ∈ [(0 : Nat)] →
      (recvStep Role.client 10
          { receivedFrames := [0], totalReceivedBytes := 10, receivedNum := 1,
            errorCount := 0, nextExpectedFrame := 1, acksSent := [] }
          (.full [2, 0, 0, 0, 0, 16, 0, 0, 0, 3])).totalReceivedBytes = 10 ∧
        (recvStep Role.client 10
            { receivedFrames := [0], totalReceivedBytes := 10, receivedNum := 1,
              errorCount := 0, nextExpectedFrame := 1, acksSent := [] }
            (.full [2, 0, 0, 0, 0, 16, 0, 0, 0, 3])).nextExpectedFrame = 1 ∧
        (recvStep Role.client 10
            { receivedFrames := [0], totalReceivedBytes := 10, receivedNum := 1,
              errorCount := 0, nextExpectedFrame := 1, acksSent := [] }
            (.full [2, 0, 0, 0, 0, 16, 0, 0, 0, 3])).receivedNum = 1) :=
  immediate_ack_at_most_once Role.client 10 _ _
    { frameNum := 0, windowSize := 16, checksum := 0, payload := [] }
    (by decide) (by decide)

lemma deserialize_none_of_bad_framing (buf : List Nat)
    (h : buf.headD 0 ≠ SOF ∨ buf.getD (buf.length - 1) 0 ≠ EOF_BYTE) :
    deserialize buf = none := by
  unfold deserialize
  by_cases h1 : buf.length < FRAME_OVERHEAD_V3
  · rw [if_pos h1]
  · rw [if_neg h1, if_pos h]

/-- **C9 (amended).** Framing-error accounting on a full-sized read with
a bad SOF or EOF byte: the client's Phase 2 loop increments its error
count (and changes nothing else); the server's Phase 1 loop drops the
buffer silently, leaving its state — error count included — unchanged.
Both continue with the next read. -/
theorem framing_error_accounting (st : RecvState) (buf : List Nat) (frameSize : Nat)
    (hlen : buf.length = frameSize)
    (hbad : buf.headD 0 ≠ SOF ∨ buf.getD (buf.length - 1) 0 ≠ EOF_BYTE) :
    recvStep Role.client frameSize st (.full buf) =
      { st with errorCount := st.errorCount + 1 } ∧
    recvStep Role.server frameSize st (.full buf) = st := by
  have hdes := deserialize_none_of_bad_framing buf hbad
  constructor <;>
  · simp only [recvStep]
    rw [if_pos hlen, hdes]

/-- **C9 witness.** A concrete all-zero 10-byte buffer (bad SOF). -/
theorem framing_error_accounting_witness :
    recvStep Role.client 10 RecvState.init (.full (List.replicate 10 0)) =
      { RecvState.init with errorCount := RecvState.init.errorCount + 1 } ∧
    recvStep Role.server 10 RecvState.init (.full (List.replicate 10 0)) =
      RecvState.init :=
  framing_error_accounting RecvState.init (List.replicate 10 0) 10
    (by decide) (by decide)

/-- **C9 counterexample.** The claim says every receiver role increments
its error count on a SOF/EOF mismatch; the server does not: on a
full-sized buffer with a wrong SOF byte its error count stays 0. -/
theorem framing_error_counterexample :
    (List.replicate 10 0).headD 0 ≠ SOF ∧
      (List.replicate 10 0).length = 10 ∧
      ¬ ((recvStep Role.server 10 RecvState.init
            (.full (List.replicate 10 0))).errorCount =
          RecvState.init.errorCount + 1) := by
  refine ⟨by decide, by decide, by decide⟩

/-! ### Delivery completeness (C1)

The loop counts `receivedNum` and advances `nextExpectedFrame` in
lockstep, so `receivedNum = nextExpectedFrame` always.  When every frame
accepted out of the read trace carries `frameNum < num` — which the
peer's sender guarantees — the cursor can never pass `num`, and the loop
exits exactly at `nextExpectedFrame = num = receivedNum`.  Without that
restriction the claim is false: the checksum does not cover the header,
so a frame whose `frameNum` field was corrupted to `num` passes every
check, and a consecutive run through it pushes `receivedNum` past
`num`. -/

/-- The C1 loop invariant. -/
def RecvInv (num : Nat) (st : RecvState) : Prop :=
  st.receivedNum = st.nextExpectedFrame ∧ st.nextExpectedFrame ≤ num ∧
    ∀ k ∈ st.receivedFrames, k < num

lemma drainLoop_inv (num : Nat) (keys : List Nat) (hkeys : ∀ k ∈ keys, k < num) :
    ∀ (fuel : Nat) (next cnt : Nat), cnt = next → next ≤ num →
      (drainLoop fuel keys next cnt).2 = (drainLoop fuel keys next cnt).1 ∧
        (drainLoop fuel keys next cnt).1 ≤ num := by
  intro fuel
  induction fuel with
  | zero => intro next cnt h1 h2; exact ⟨h1.symm ▸ rfl, h2⟩
  | succ fuel ih =>
      intro next cnt h1 h2
      unfold drainLoop
      split_ifs with hmem
      · exact ih (next + 1) (cnt + 1) (by omega) (by have := hkeys next hmem; omega)
      · exact ⟨h1.symm ▸ rfl, h2⟩

lemma recvStep_inv (role : Role) (frameSize num : Nat) (st : RecvState)
    (r : ReadResult)
    (hr : ∀ buf f, r = .full buf → deserialize buf = some f → f.frameNum < num)
    (h : RecvInv num st) : RecvInv num (recvStep role frameSize st r) := by
  cases r with
  | timeout => exact h
  | full buf =>
      simp only [recvStep]
      by_cases hlen : buf.length = frameSize
      · rw [if_pos hlen]
        split
        · split
          · exact ⟨h.1, h.2.1, h.2.2⟩
          · exact h
        · rename_i f hdes
          have hfn : f.frameNum < num := hr buf f rfl hdes
          split_ifs with hre hdup hck hpl
          · exact ⟨h.1, h.2.1, h.2.2⟩
          · have hkeys : ∀ k ∈ f.frameNum :: st.receivedFrames, k < num := by
              intro k hk
              rcases List.mem_cons.1 hk with hk | hk
              · omega
              · exact h.2.2 k hk
            have hdr := drainLoop_inv num (f.frameNum :: st.receivedFrames)
              hkeys (f.frameNum :: st.receivedFrames).length
              st.nextExpectedFrame st.receivedNum h.1 h.2.1
            exact ⟨hdr.1, hdr.2, hkeys⟩
          · exact ⟨h.1, h.2.1, h.2.2⟩
          · exact ⟨h.1, h.2.1, h.2.2⟩
          · exact h
      · rw [if_neg hlen]
        exact h

lemma recvLoop_inv (role : Role) (frameSize num : Nat) :
    ∀ (reads : List ReadResult) (st : RecvState), RecvInv num st →
      readsWellFramed num reads = true →
      RecvInv num (recvLoop role frameSize num st reads) := by
  intro reads
  induction reads with
  | nil => intro st h _; exact h
  | cons r rs ih =>
      intro st h hw
      rw [readsWellFramed, List.all_cons, Bool.and_eq_true] at hw
      unfold recvLoop
      split_ifs with hlt
      · refine ih _ (recvStep_inv role frameSize num st r ?_ h) hw.2
        intro buf f hbuf hdes
        subst hbuf
        have hw1 := hw.1
        simp only [] at hw1
        rw [hdes] at hw1
        simpa using hw1
      · exact h

/-- **C1 (amended).** In either receiving role, `receivedNum` always
equals `nextExpectedFrame` (one increment per cursor advance), the
cursor never passes `num` provided every frame accepted from the read
trace has `frameNum < num` (the peer's sender only emits frames
`0..num-1`), and hence whenever the loop has finished — i.e. the cursor
has reached `num` — the received frame count equals the session's frame
count. -/
theorem recv_delivery_completeness (role : Role) (frameSize num : Nat)
    (reads : List ReadResult) (hw : readsWellFramed num reads = true) :
    (recvLoop role frameSize num RecvState.init reads).receivedNum =
        (recvLoop role frameSize num RecvState.init reads).nextExpectedFrame ∧
      (recvLoop role frameSize num RecvState.init reads).nextExpectedFrame ≤ num ∧
      (num ≤ (recvLoop role frameSize num RecvState.init reads).nextExpectedFrame →
        (recvLoop role frameSize num RecvState.init reads).receivedNum = num) := by
  have hinit : RecvInv num RecvState.init := by
    refine ⟨rfl, by simp [RecvState.init], ?_⟩
    intro k hk
    simp [RecvState.init] at hk
  have h := recvLoop_inv role frameSize num reads RecvState.init hinit hw
  exact ⟨h.1, h.2.1, fun hge => by have := h.1; have := h.2.1; omega⟩

/-- **C1 witness.** A clean one-frame client session: the single valid
frame 0 arrives, the loop finishes with cursor 1 and received count 1. -/
theorem recv_delivery_completeness_witness :
    ((recvLoop Role.client 10 1 RecvState.init
        [.full [2, 0, 0, 0, 0, 16, 0, 0, 0, 3]]).receivedNum =
      (recvLoop Role.client 10 1 RecvState.init
        [.full [2, 0, 0, 0, 0, 16, 0, 0, 0, 3]]).nextExpectedFrame) ∧
    (recvLoop Role.client 10 1 RecvState.init
        [.full [2, 0, 0, 0, 0, 16, 0, 0, 0, 3]]).nextExpectedFrame ≤ 1 ∧
    (1 ≤ (recvLoop Role.client 10 1 RecvState.init
        [.full [2, 0, 0, 0, 0, 16, 0, 0, 0, 3]]).nextExpectedFrame →
      (recvLoop Role.client 10 1 RecvState.init
        [.full [2, 0, 0, 0, 0, 16, 0, 0, 0, 3]]).receivedNum = 1) :=
  recv_delivery_completeness Role.client 10 1
    [.full [2, 0, 0, 0, 0, 16, 0, 0, 0, 3]] (by decide)

/-- **C1 counterexample.** In a one-frame session (`num = 1`), a frame
whose `frameNum` field reads 1 — e.g. a corrupted header, which the
payload checksum does not cover — passes the SOF/EOF, duplicate,
checksum, and payload checks, so after the real frame 0 arrives the
drain loop runs through both entries: the loop exits
(`nextExpectedFrame = 2 ≥ num`) with `receivedNum = 2 ≠ 1 = num`,
refuting `receivedNum = num` as the claim states it. -/
theorem recv_delivery_completeness_counterexample :
    1 ≤ (recvLoop Role.client 10 1 RecvState.init
        [.full [2, 1, 0, 0, 0, 16, 0, 0, 0, 3],
         .full [2, 0, 0, 0, 0, 16, 0, 0, 0, 3]]).nextExpectedFrame ∧
      (recvLoop Role.client 10 1 RecvState.init
        [.full [2, 1, 0, 0, 0, 16, 0, 0, 0, 3],
         .full [2, 0, 0, 0, 0, 16, 0, 0, 0, 3]]).receivedNum ≠ 1 := by
  refine ⟨by decide, by decide⟩

end MySerial
